import Mathlib

/-!
Verification of the amorphous-structure generator (genamorph.py).

The source program is embedded shallowly:
* positions, box extents, radii and masses are exact rationals
  (the floating-point program is idealised over the rationals);
* the square roots produced by the program (distances and scores)
  are modelled in the reals, while the comparisons the program makes
  on those square roots are carried out by computable rational tests
  (distLtB, scoreGt) that are proved equivalent to the real
  comparisons (distLtB_eq_true_iff, scoreGt_eq_true_iff);
* the global numpy random stream is modelled as an explicit stream
  of draws (a function from an index to a vector) together with a
  cursor that every consumer advances;
* the element tables of ASE (covalent radius, atomic mass) are
  external collaborators and enter as function parameters.
-/

/-- Chemical species identifier (an element symbol in the source). -/
abbrev Species := String

/-- A point or per-axis vector: one rational per axis (numpy arrays in the source). -/
abbrev PosVec := List ℚ

/-- Embeds get_combined_bond_length: sum of the two covalent radii.
The lru_cache in the source is pure memoisation and has no semantic content. -/
def get_combined_bond_length (radius : Species → ℚ) (symbol1 symbol2 : Species) : ℚ :=
  radius symbol1 + radius symbol2

/-- The squared minimum-image distance: per-axis delta = |p1 - p2|,
replaced by cell - delta when delta > 0.5 * cell, then the sum of squares.
This is exactly the quantity under the square root in minimum_image_distance. -/
def mid_sq (position1 position2 cell_size : PosVec) : ℚ :=
  let delta := List.zipWith (fun a b => |a - b|) position1 position2
  let corrected := List.zipWith (fun d c => if 1/2 * c < d then c - d else d) delta cell_size
  (corrected.map (fun d => d ^ 2)).sum

/-- Embeds minimum_image_distance: the square root of the corrected sum of squares. -/
noncomputable def minimum_image_distance (position1 position2 cell_size : PosVec) : ℝ :=
  Real.sqrt (mid_sq position1 position2 cell_size)

/-- Squared ordinary (non-periodic) Euclidean distance, the quantity
under the square root computed by scipy cdist. -/
def eucSq (position1 position2 : PosVec) : ℚ :=
  ((List.zipWith (fun a b => a - b) position1 position2).map (fun d => d ^ 2)).sum

/-- Ordinary Euclidean distance between two points (scipy cdist metric). -/
noncomputable def euclidean_distance (position1 position2 : PosVec) : ℝ :=
  Real.sqrt (eucSq position1 position2)

/-- Computable test standing for the comparison sqrt dsq < bound made by the
source on a true distance; proved equivalent in distLtB_eq_true_iff. -/
def distLtB (dsq bound : ℚ) : Bool :=
  decide (0 ≤ bound) && decide (dsq < bound ^ 2)

/-- Embeds is_position_allowed: the candidate is rejected when its
minimum-image distance to some existing particle is strictly below
min_factor times the combined bond length of the two species.
Distances are zipped against the symbols of the already placed atoms. -/
def is_position_allowed (new_pos : PosVec) (existing_positions : List PosVec)
    (existing_symbols : List Species) (symbol : Species) (radius : Species → ℚ)
    (cell_size : PosVec) (min_factor : ℚ) : Bool :=
  if existing_positions.isEmpty then
    true
  else
    ((existing_positions.map (fun pos => mid_sq new_pos pos cell_size)).zip
        existing_symbols).all
      (fun de => ! distLtB de.1 (get_combined_bond_length radius symbol de.2 * min_factor))

/-- numpy rounding: round half to even (used by np.round in the source). -/
def npRound (q : ℚ) : ℤ :=
  let f := ⌊q⌋
  if q - f < 1/2 then f
  else if 1/2 < q - f then f + 1
  else if f % 2 = 0 then f else f + 1

/-- The mass conversion factor 1.66053906660e-24 of the source, as an exact rational. -/
def mcf : ℚ := 166053906660 / 10 ^ 35

/-- Embeds calculate_required_atoms.  For each species: its per-formula-unit
mass in grams, its own candidate formula-unit count, and its atom total;
the function returns the rounded sum of the per-species atom totals. -/
def calculate_required_atoms (mass : Species → ℚ) (atomic_symbols : List (Species × ℕ))
    (cell_size : PosVec) (target_density : ℚ) : ℤ :=
  let cell_volume := cell_size.prod
  let total_mass_g := atomic_symbols.map (fun p => mass p.1 * mcf * (p.2 : ℚ))
  let cell_volume_cm3 := cell_volume * (1 / 10 ^ 24)
  let num_formula_units := total_mass_g.map (fun g => target_density * cell_volume_cm3 / g)
  let total_atoms := (atomic_symbols.zip num_formula_units).map (fun pn => (pn.1.2 : ℚ) * pn.2)
  npRound total_atoms.sum

/-- Squared minimum non-periodic distance from a candidate to the existing
positions: the quantity under the square root of np.min(cdist(...)). -/
def minDistSq (p : PosVec) : List PosVec → ℚ
  | [] => 0
  | e :: es => (es.map (fun x => eucSq p x)).foldl min (eucSq p e)

/-- Computable test standing for the score comparison
sqrt dNew / temperature > sqrt dBest / temperature of the source;
proved equivalent in scoreGt_eq_true_iff. -/
def scoreGt (temperature dNew dBest : ℚ) : Bool :=
  if 0 < temperature then decide (dBest < dNew)
  else if temperature < 0 then decide (dNew < dBest)
  else false

/-- A trial candidate position: np.random.rand(3) * (cell_size - 1) + 0.5. -/
def candPos (draw cell_size : PosVec) : PosVec :=
  List.zipWith (fun r c => r * (c - 1) + 1/2) draw cell_size

/-- An unconstrained random position: np.random.rand(3) * cell_size. -/
def randPos (draw cell_size : PosVec) : PosVec :=
  List.zipWith (fun r c => r * c) draw cell_size

/-- One attempt of the selection loop of select_position_metropolis.
The accumulator holds the best candidate so far together with its squared
minimum non-periodic distance (None models the initial max_score = -inf:
the first allowed candidate is always retained). -/
def attemptStep (rng : ℕ → PosVec) (k : ℕ) (existing_positions : List PosVec)
    (existing_symbols : List Species) (symbol : Species) (radius : Species → ℚ)
    (cell_size : PosVec) (temperature : ℚ)
    (acc : Option (PosVec × ℚ)) (i : ℕ) : Option (PosVec × ℚ) :=
  let new_pos := candPos (rng (k + i)) cell_size
  if is_position_allowed new_pos existing_positions existing_symbols symbol radius cell_size
      (11/10) then
    let dsq := minDistSq new_pos existing_positions
    match acc with
    | none => some (new_pos, dsq)
    | some b => if scoreGt temperature dsq b.2 then some (new_pos, dsq) else some b
  else acc

/-- Embeds select_position_metropolis.  Returns the chosen position, the
advanced random-stream cursor, and a ghost flag recording whether the
unconstrained fallback branch was taken (the source returns only the
position; the flag instruments the return for the analysis).
The min_factor 11/10 is the default the source call site relies on. -/
def select_position_metropolis (rng : ℕ → PosVec) (k : ℕ)
    (existing_positions : List PosVec) (existing_symbols : List Species)
    (symbol : Species) (radius : Species → ℚ) (cell_size : PosVec)
    (temperature : ℚ) (max_attempts : ℕ) : PosVec × ℕ × Bool :=
  if existing_positions.isEmpty then
    (randPos (rng k) cell_size, k + 1, false)
  else
    match (List.range max_attempts).foldl
        (attemptStep rng k existing_positions existing_symbols symbol radius cell_size
          temperature) none with
    | some b => (b.1, k + max_attempts, false)
    | none => (randPos (rng (k + max_attempts)) cell_size, k + max_attempts + 1, true)

/-- Build state of create_amorphous_structure: the placed particles (the
positions list together with the symbols held by the growing Atoms object),
the random-stream cursor, and a ghost count of fallback placements. -/
structure BuildState where
  particles : List (Species × PosVec)
  idx : ℕ
  fallbacks : ℕ
deriving DecidableEq, Repr

/-- One iteration of the placement loop of create_amorphous_structure:
select a position against the current placed set and append it.  The call
site of the source uses the selector defaults temperature = 0.1 and
max_attempts = 1000.  The selector never returns None (its fallback branch
returns a position), so the None guard of the source never fires and the
particle is always appended. -/
def buildStep (radius : Species → ℚ) (rng : ℕ → PosVec) (cell_size : PosVec)
    (st : BuildState) (symbol : Species) : BuildState :=
  let r := select_position_metropolis rng st.idx (st.particles.map (fun p => p.2))
    (st.particles.map (fun p => p.1)) symbol radius cell_size (1/10) 1000
  { particles := st.particles ++ [(symbol, r.1)]
    idx := r.2.1
    fallbacks := st.fallbacks + (if r.2.2 then 1 else 0) }

/-- The per-species planned atom counts of create_amorphous_structure:
np.round(stoichiometry_ratios * num_atoms) with
stoichiometry_ratios = weights / sum(weights) and
num_atoms = calculate_required_atoms(...). -/
def planned_atom_counts (mass : Species → ℚ) (atomic_symbols : List (Species × ℕ))
    (cell_size : PosVec) (target_density : ℚ) : List ℤ :=
  let num_atoms := calculate_required_atoms mass atomic_symbols cell_size target_density
  let wsum : ℕ := (atomic_symbols.map (fun p => p.2)).sum
  atomic_symbols.map (fun p => npRound ((p.2 : ℚ) / (wsum : ℚ) * (num_atoms : ℚ)))

/-- Expands a (species, planned count) list into the per-particle job
sequence the placement loop iterates over, species batch by species batch. -/
def jobsOf : List (Species × ℤ) → List Species
  | [] => []
  | p :: rest => List.replicate p.2.toNat p.1 ++ jobsOf rest

/-- The full job sequence of one build. -/
def plannedJobs (mass : Species → ℚ) (atomic_symbols : List (Species × ℕ))
    (cell_size : PosVec) (target_density : ℚ) : List Species :=
  jobsOf ((atomic_symbols.map (fun p => p.1)).zip
    (planned_atom_counts mass atomic_symbols cell_size target_density))

/-- Instrumented embedding of create_amorphous_structure: the returned state
additionally carries the random cursor and the ghost fallback count.
In the exact-rational model every intermediate quantity is finite, so the
np.isfinite guard of the source can never fire; the NaN-or-negative guard
on the atom counts reduces to the negativity test.  The final iteration
over species batches is the fold of buildStep over the job sequence. -/
def createInstr (radius mass : Species → ℚ) (atomic_symbols : List (Species × ℕ))
    (cell_size : PosVec) (target_density : ℚ) (rng : ℕ → PosVec) :
    Except String BuildState :=
  let atom_counts := planned_atom_counts mass atomic_symbols cell_size target_density
  if atom_counts.any (fun c => c < 0) then
    Except.error ("Atom counts calculation resulted in NaN or negative values.")
  else
    Except.ok ((plannedJobs mass atomic_symbols cell_size target_density).foldl
      (buildStep radius rng cell_size) ⟨[], 0, 0⟩)

/-- Embeds create_amorphous_structure: the value the source returns is the
built particle list (the Atoms object: symbols with positions). -/
def create_amorphous_structure (radius mass : Species → ℚ)
    (atomic_symbols : List (Species × ℕ)) (cell_size : PosVec)
    (target_density : ℚ) (rng : ℕ → PosVec) : Except String (List (Species × PosVec)) :=
  (createInstr radius mass atomic_symbols cell_size target_density rng).map
    (fun st => st.particles)

/-! ### Basic facts about the geometric kernels -/

lemma sum_sq_nonneg (l : List ℚ) : 0 ≤ (l.map (fun d => d ^ 2)).sum := by
  apply List.sum_nonneg
  intro x hx
  rcases List.mem_map.1 hx with ⟨d, _, rfl⟩
  positivity

lemma mid_sq_nonneg (p1 p2 cell : PosVec) : 0 ≤ mid_sq p1 p2 cell := by
  unfold mid_sq
  apply sum_sq_nonneg

lemma eucSq_nonneg (p1 p2 : PosVec) : 0 ≤ eucSq p1 p2 := by
  unfold eucSq
  apply sum_sq_nonneg

lemma mid_sq_comm (p1 p2 cell : PosVec) : mid_sq p1 p2 cell = mid_sq p2 p1 cell := by
  unfold mid_sq
  have h : List.zipWith (fun a b => |a - b|) p1 p2 = List.zipWith (fun a b => |a - b|) p2 p1 := by
    induction p1 generalizing p2 with
    | nil => cases p2 <;> simp
    | cons a as ih =>
      cases p2 with
      | nil => simp
      | cons b bs => simp [abs_sub_comm, ih]
  rw [h]

/-- The computable rejection test coincides with the comparison
sqrt dsq < bound that the source makes on the true distance. -/
lemma distLtB_eq_true_iff (dsq bound : ℚ) (hd : 0 ≤ dsq) :
    distLtB dsq bound = true ↔ Real.sqrt (dsq : ℚ) < (bound : ℚ) := by
  unfold distLtB
  rw [Bool.and_eq_true, decide_eq_true_iff, decide_eq_true_iff]
  rcases le_or_lt bound 0 with hb | hb
  · constructor
    · rintro ⟨hb0, hlt⟩
      have hbe : bound = 0 := le_antisymm hb hb0
      subst hbe
      simp at hlt
      exact absurd hlt (not_lt.2 hd)
    · intro hlt
      exfalso
      have hs : (0 : ℝ) ≤ Real.sqrt (dsq : ℚ) := Real.sqrt_nonneg _
      have hb2 : (0 : ℝ) < ((bound : ℚ) : ℝ) := lt_of_le_of_lt hs hlt
      have hb3 : (0 : ℚ) < bound := by exact_mod_cast hb2
      exact absurd hb3 (not_lt.2 hb)
  · rw [Real.sqrt_lt' (by exact_mod_cast hb)]
    constructor
    · rintro ⟨_, hlt⟩
      exact_mod_cast hlt
    · intro hlt
      exact ⟨le_of_lt hb, by exact_mod_cast hlt⟩

/-- The computable score test coincides with the comparison
sqrt dNew / temperature > sqrt dBest / temperature made by the source
(all minimum squared distances are nonnegative). -/
lemma scoreGt_eq_true_iff (temperature dNew dBest : ℚ)
    (h1 : 0 ≤ dNew) (h2 : 0 ≤ dBest) :
    scoreGt temperature dNew dBest = true ↔
      Real.sqrt (dBest : ℚ) / (temperature : ℚ) <
        Real.sqrt (dNew : ℚ) / (temperature : ℚ) := by
  unfold scoreGt
  rcases lt_trichotomy (0 : ℚ) temperature with ht | ht | ht
  · rw [if_pos ht, decide_eq_true_iff]
    rw [div_lt_div_iff_of_pos_right (by exact_mod_cast ht)]
    rw [Real.sqrt_lt_sqrt_iff (by exact_mod_cast h2)]
    exact ⟨fun h => by exact_mod_cast h, fun h => by exact_mod_cast h⟩
  · rw [if_neg (by rw [← ht]; exact lt_irrefl 0), if_neg (by rw [← ht]; exact lt_irrefl 0)]
    rw [← ht]
    simp
  · rw [if_neg (by exact not_lt.2 (le_of_lt ht)), if_pos ht, decide_eq_true_iff]
    rw [div_lt_div_right_of_neg (by exact_mod_cast ht)]
    rw [Real.sqrt_lt_sqrt_iff (by exact_mod_cast h1)]
    exact ⟨fun h => by exact_mod_cast h, fun h => by exact_mod_cast h⟩

/-- Positive temperatures all induce the same score comparison. -/
lemma scoreGt_pos (t1 t2 : ℚ) (h1 : 0 < t1) (h2 : 0 < t2) (dNew dBest : ℚ) :
    scoreGt t1 dNew dBest = scoreGt t2 dNew dBest := by
  unfold scoreGt
  rw [if_pos h1, if_pos h2]

lemma zip_map_map_all {α β γ : Type} (L : List α) (f : α → β) (g : α → γ)
    (p : β × γ → Bool) :
    ((L.map f).zip (L.map g)).all p = L.all (fun e => p (f e, g e)) := by
  induction L with
  | nil => rfl
  | cons e es ih => simp only [List.map_cons, List.zip_cons_cons, List.all_cons, ih]

/-- The constraint check over the projections of a placed set is the
conjunction of the pairwise tests over the placed particles. -/
lemma is_position_allowed_pairs (c : PosVec) (L : List (Species × PosVec))
    (s : Species) (radius : Species → ℚ) (cell : PosVec) (mf : ℚ) :
    is_position_allowed c (L.map (fun p => p.2)) (L.map (fun p => p.1)) s radius cell mf =
      L.all (fun e => ! distLtB (mid_sq c e.2 cell)
        (get_combined_bond_length radius s e.1 * mf)) := by
  cases L with
  | nil => simp [is_position_allowed]
  | cons e es =>
    unfold is_position_allowed
    rw [if_neg (by simp)]
    rw [List.map_map]
    exact zip_map_map_all (e :: es) (fun x => mid_sq c x.2 cell) (fun x => x.1)
      (fun de => ! distLtB de.1 (get_combined_bond_length radius s de.2 * mf))

/-! ### Structure of the selector -/

lemma select_empty (rng : ℕ → PosVec) (k : ℕ) (syms : List Species) (symbol : Species)
    (radius : Species → ℚ) (cell : PosVec) (t : ℚ) (n : ℕ) :
    select_position_metropolis rng k [] syms symbol radius cell t n =
      (randPos (rng k) cell, k + 1, false) := rfl

lemma select_of_fold_some (rng : ℕ → PosVec) (k : ℕ) (existing : List PosVec)
    (syms : List Species) (symbol : Species) (radius : Species → ℚ) (cell : PosVec)
    (t : ℚ) (n : ℕ) (b : PosVec × ℚ)
    (hne : existing.isEmpty = false)
    (hfold : (List.range n).foldl
      (attemptStep rng k existing syms symbol radius cell t) none = some b) :
    select_position_metropolis rng k existing syms symbol radius cell t n =
      (b.1, k + n, false) := by
  unfold select_position_metropolis
  rw [hne]
  simp only [Bool.false_eq_true, if_false, hfold]

lemma select_of_fold_none (rng : ℕ → PosVec) (k : ℕ) (existing : List PosVec)
    (syms : List Species) (symbol : Species) (radius : Species → ℚ) (cell : PosVec)
    (t : ℚ) (n : ℕ)
    (hne : existing.isEmpty = false)
    (hfold : (List.range n).foldl
      (attemptStep rng k existing syms symbol radius cell t) none = none) :
    select_position_metropolis rng k existing syms symbol radius cell t n =
      (randPos (rng (k + n)) cell, k + n + 1, true) := by
  unfold select_position_metropolis
  rw [hne]
  simp only [Bool.false_eq_true, if_false, hfold]

/-- A fold whose step fixes the accumulator on every member of the list. -/
lemma foldl_fix_of_mem {α β : Type} (f : α → β → α) (a : α) (l : List β)
    (h : ∀ x ∈ l, f a x = a) : l.foldl f a = a := by
  induction l with
  | nil => rfl
  | cons x xs ih =>
    rw [List.foldl_cons, h x (List.mem_cons_self x xs)]
    exact ih (fun y hy => h y (List.mem_cons_of_mem x hy))

/-- A fold that jumps from the start value to a fixed point on the first
member and stays there afterwards. -/
lemma foldl_to_fix_of_mem {α β : Type} (f : α → β → α) (a b : α) (l : List β)
    (hne : l ≠ [])
    (h0 : ∀ x ∈ l, f a x = b) (hb : ∀ x ∈ l, f b x = b) : l.foldl f a = b := by
  cases l with
  | nil => exact absurd rfl hne
  | cons x xs =>
    rw [List.foldl_cons, h0 x (List.mem_cons_self x xs)]
    exact foldl_fix_of_mem f b xs (fun y hy => hb y (List.mem_cons_of_mem x hy))

/-- Every position held in the selection-loop accumulator passed the
constraint check against the existing particles. -/
lemma attemptFold_allowed (rng : ℕ → PosVec) (k : ℕ) (existing : List PosVec)
    (syms : List Species) (symbol : Species) (radius : Species → ℚ) (cell : PosVec)
    (t : ℚ) (l : List ℕ) (acc : Option (PosVec × ℚ))
    (hacc : ∀ b : PosVec × ℚ, acc = some b →
      is_position_allowed b.1 existing syms symbol radius cell (11/10) = true) :
    ∀ b : PosVec × ℚ,
      l.foldl (attemptStep rng k existing syms symbol radius cell t) acc = some b →
      is_position_allowed b.1 existing syms symbol radius cell (11/10) = true := by
  induction l generalizing acc with
  | nil => exact hacc
  | cons i is ih =>
    intro b hb
    rw [List.foldl_cons] at hb
    refine ih _ ?_ b hb
    intro b2 hb2
    unfold attemptStep at hb2
    by_cases hall : is_position_allowed (candPos (rng (k + i)) cell) existing syms symbol
        radius cell (11/10) = true
    · rw [if_pos hall] at hb2
      rcases hacc2 : acc with _ | prev
      · rw [hacc2] at hb2
        simp at hb2
        rw [← hb2]
        exact hall
      · rw [hacc2] at hb2
        simp only [] at hb2
        by_cases hsc : scoreGt t (minDistSq (candPos (rng (k + i)) cell) existing) prev.2 = true
        · rw [if_pos hsc] at hb2
          simp at hb2
          rw [← hb2]
          exact hall
        · rw [if_neg (by simp [Bool.not_eq_true] at hsc ⊢; exact hsc)] at hb2
          simp at hb2
          rw [← hb2]
          exact hacc prev hacc2
    · rw [if_neg hall] at hb2
      exact hacc b2 hb2

/-- When the selector does not fall back on a non-empty placed set, the
returned position passed the constraint check (with the default
min_factor 1.1) against every existing particle. -/
lemma select_no_fallback_allowed (rng : ℕ → PosVec) (k : ℕ) (existing : List PosVec)
    (syms : List Species) (symbol : Species) (radius : Species → ℚ) (cell : PosVec)
    (t : ℚ) (n : ℕ) (p : PosVec) (k2 : ℕ)
    (hne : existing.isEmpty = false)
    (hsel : select_position_metropolis rng k existing syms symbol radius cell t n =
      (p, k2, false)) :
    is_position_allowed p existing syms symbol radius cell (11/10) = true := by
  unfold select_position_metropolis at hsel
  rw [hne] at hsel
  simp only [Bool.false_eq_true, if_false] at hsel
  rcases hfold : (List.range n).foldl
      (attemptStep rng k existing syms symbol radius cell t) none with _ | b
  · rw [hfold] at hsel
    simp at hsel
  · rw [hfold] at hsel
    simp only [] at hsel
    have hb := attemptFold_allowed rng k existing syms symbol radius cell t
      (List.range n) none (by intro b2 hb2; cases hb2) b hfold
    have hp : p = b.1 := by
      have := congrArg Prod.fst hsel
      simp at this
      exact this.symm
    rw [hp]
    exact hb

/-! ### Structure of the build loop -/

lemma buildStep_eq (radius : Species → ℚ) (rng : ℕ → PosVec) (cell : PosVec)
    (st : BuildState) (symbol : Species) (p : PosVec) (k2 : ℕ) (fb : Bool)
    (hsel : select_position_metropolis rng st.idx (st.particles.map (fun q => q.2))
      (st.particles.map (fun q => q.1)) symbol radius cell (1/10) 1000 = (p, k2, fb)) :
    buildStep radius rng cell st symbol =
      ⟨st.particles ++ [(symbol, p)], k2, st.fallbacks + (if fb then 1 else 0)⟩ := by
  unfold buildStep
  rw [hsel]

lemma buildStep_particles (radius : Species → ℚ) (rng : ℕ → PosVec) (cell : PosVec)
    (st : BuildState) (symbol : Species) :
    (buildStep radius rng cell st symbol).particles =
      st.particles ++ [(symbol, (select_position_metropolis rng st.idx
        (st.particles.map (fun q => q.2)) (st.particles.map (fun q => q.1))
        symbol radius cell (1/10) 1000).1)] := rfl

lemma buildStep_length (radius : Species → ℚ) (rng : ℕ → PosVec) (cell : PosVec)
    (st : BuildState) (symbol : Species) :
    (buildStep radius rng cell st symbol).particles.length = st.particles.length + 1 := by
  rw [buildStep_particles]
  simp

lemma buildStep_fallbacks_le (radius : Species → ℚ) (rng : ℕ → PosVec) (cell : PosVec)
    (st : BuildState) (symbol : Species) :
    st.fallbacks ≤ (buildStep radius rng cell st symbol).fallbacks := by
  unfold buildStep
  exact Nat.le_add_right _ _

lemma buildFold_length (radius : Species → ℚ) (rng : ℕ → PosVec) (cell : PosVec)
    (jobs : List Species) (st : BuildState) :
    ((jobs.foldl (buildStep radius rng cell) st).particles).length =
      st.particles.length + jobs.length := by
  induction jobs generalizing st with
  | nil => simp
  | cons j js ih =>
    rw [List.foldl_cons, ih, buildStep_length]
    simp
    omega

lemma buildFold_fallbacks_le (radius : Species → ℚ) (rng : ℕ → PosVec) (cell : PosVec)
    (jobs : List Species) (st : BuildState) :
    st.fallbacks ≤ (jobs.foldl (buildStep radius rng cell) st).fallbacks := by
  induction jobs generalizing st with
  | nil => exact le_refl _
  | cons j js ih =>
    rw [List.foldl_cons]
    exact le_trans (buildStep_fallbacks_le radius rng cell st j) (ih _)

/-- The separation property claimed for every pair of placed particles:
minimum-image distance at least 1.1 times the combined covalent radii. -/
def separated (radius : Species → ℚ) (cell : PosVec) (a b : Species × PosVec) : Prop :=
  ((get_combined_bond_length radius a.1 b.1 * (11/10) : ℚ) : ℝ) ≤
    minimum_image_distance a.2 b.2 cell

/-- A candidate that passes the constraint check is separated from every
existing particle. -/
lemma allowed_separated (radius : Species → ℚ) (cell : PosVec) (c : PosVec)
    (s : Species) (L : List (Species × PosVec))
    (hall : is_position_allowed c (L.map (fun q => q.2)) (L.map (fun q => q.1))
      s radius cell (11/10) = true) :
    ∀ e ∈ L, separated radius cell e (s, c) := by
  rw [is_position_allowed_pairs, List.all_eq_true] at hall
  intro e he
  have h := hall e he
  have hfalse : distLtB (mid_sq c e.2 cell)
      (get_combined_bond_length radius s e.1 * (11/10)) = false := by
    rcases hdl : distLtB (mid_sq c e.2 cell)
        (get_combined_bond_length radius s e.1 * (11/10)) with _ | _
    · rfl
    · rw [hdl] at h
      simp at h
  have hnot : ¬ Real.sqrt ((mid_sq c e.2 cell : ℚ)) <
      ((get_combined_bond_length radius s e.1 * (11/10) : ℚ) : ℝ) := by
    rw [← distLtB_eq_true_iff _ _ (mid_sq_nonneg c e.2 cell)]
    rw [hfalse]
    simp
  have hle := not_lt.1 hnot
  unfold separated minimum_image_distance
  rw [mid_sq_comm e.2 c]
  unfold get_combined_bond_length at hle ⊢
  rw [add_comm (radius e.1) (radius s)]
  exact hle

lemma pairwise_append_one {α : Type} {R : α → α → Prop} (l : List α) (a : α)
    (h1 : l.Pairwise R) (h2 : ∀ x ∈ l, R x a) : (l ++ [a]).Pairwise R := by
  rw [List.pairwise_append]
  refine ⟨h1, List.pairwise_singleton R a, ?_⟩
  intro x hx b hb
  rw [List.mem_singleton] at hb
  rw [hb]
  exact h2 x hx

/-- A build step that produced no fallback preserves pairwise separation. -/
lemma buildStep_pairwise (radius : Species → ℚ) (rng : ℕ → PosVec) (cell : PosVec)
    (st : BuildState) (symbol : Species)
    (hfb : (buildStep radius rng cell st symbol).fallbacks = st.fallbacks)
    (hp : st.particles.Pairwise (separated radius cell)) :
    (buildStep radius rng cell st symbol).particles.Pairwise (separated radius cell) := by
  rcases hsel : select_position_metropolis rng st.idx (st.particles.map (fun q => q.2))
      (st.particles.map (fun q => q.1)) symbol radius cell (1/10) 1000 with ⟨p, k2, fb⟩
  rw [buildStep_eq radius rng cell st symbol p k2 fb hsel] at hfb ⊢
  rcases hpart : st.particles with _ | ⟨e, es⟩
  · simp
  · have hne : (st.particles.map (fun q => q.2)).isEmpty = false := by
      rw [hpart]
      rfl
    have hfb2 : fb = false := by
      rcases fb with _ | _
      · rfl
      · simp at hfb
    rw [hfb2] at hsel
    have hall := select_no_fallback_allowed rng st.idx (st.particles.map (fun q => q.2))
      (st.particles.map (fun q => q.1)) symbol radius cell (1/10) 1000 p k2 hne hsel
    have hsep := allowed_separated radius cell p symbol st.particles hall
    rw [← hpart]
    exact pairwise_append_one st.particles (symbol, p) hp hsep

/-- A run of the build loop that adds no fallback preserves pairwise separation. -/
lemma buildFold_pairwise (radius : Species → ℚ) (rng : ℕ → PosVec) (cell : PosVec)
    (jobs : List Species) (st : BuildState)
    (hfb : (jobs.foldl (buildStep radius rng cell) st).fallbacks = st.fallbacks)
    (hp : st.particles.Pairwise (separated radius cell)) :
    (jobs.foldl (buildStep radius rng cell) st).particles.Pairwise (separated radius cell) := by
  induction jobs generalizing st with
  | nil => exact hp
  | cons j js ih =>
    rw [List.foldl_cons] at hfb ⊢
    have h1 : st.fallbacks ≤ (buildStep radius rng cell st j).fallbacks :=
      buildStep_fallbacks_le radius rng cell st j
    have h2 : (buildStep radius rng cell st j).fallbacks ≤
        (js.foldl (buildStep radius rng cell) (buildStep radius rng cell st j)).fallbacks :=
      buildFold_fallbacks_le radius rng cell js _
    have heq : (buildStep radius rng cell st j).fallbacks = st.fallbacks := by
      omega
    exact ih _ (by rw [hfb, heq]) (buildStep_pairwise radius rng cell st j heq hp)

/-! ### Concrete data used by the witnesses and counterexamples -/

/-- A random stream that always draws one half on each axis. -/
def rngHalf : ℕ → PosVec := fun _ => [1/2, 1/2, 1/2]

/-- A radius table giving every species covalent radius 1. -/
def radOne : Species → ℚ := fun _ => 1

/-- A mass table whose single-species gram mass is 1e-21, so that one atom
fills a 10 x 10 x 10 cell at density 1. -/
def massOne : Species → ℚ := fun _ => 100000000000000 / 166053906660

lemma calcOne : calculate_required_atoms massOne [("X", 1)] [10, 10, 10] 1 = 1 := by
  unfold calculate_required_atoms
  norm_num [massOne, mcf, npRound]

lemma countsOne : planned_atom_counts massOne [("X", 1)] [10, 10, 10] 1 = [1] := by
  unfold planned_atom_counts
  rw [calcOne]
  norm_num [npRound]

/-- The one-atom build: the empty placed set makes the selector return the
first unconstrained draw, and no fallback occurs. -/
lemma singleAtomRun : createInstr radOne massOne [("X", 1)] [10, 10, 10] 1 rngHalf =
    Except.ok ⟨[("X", [5, 5, 5])], 1, 0⟩ := by
  unfold createInstr plannedJobs
  rw [countsOne]
  norm_num [jobsOf]
  rw [buildStep_eq radOne rngHalf [10, 10, 10] ⟨[], 0, 0⟩ ("X")
    (randPos (rngHalf 0) [10, 10, 10]) 1 false (select_empty rngHalf 0 [] ("X") radOne
      [10, 10, 10] (1/10) 1000)]
  norm_num [randPos, rngHalf]

/-! ### Claim C1 -/

/-- C1: separation invariant of the built structure.  For every random
stream, tables, stoichiometry, box and density, if the build returns and
its ghost fallback count is zero, then every pair of placed particles is
at minimum-image distance at least 1.1 times the sum of their covalent
radii (the default min_factor of the source); the fallback branch of the
selector is the only step that can break this. -/
theorem separation_invariant (radius mass : Species → ℚ)
    (atomic_symbols : List (Species × ℕ)) (cell : PosVec) (target_density : ℚ)
    (rng : ℕ → PosVec) (st : BuildState)
    (hok : createInstr radius mass atomic_symbols cell target_density rng = Except.ok st)
    (hfb : st.fallbacks = 0) :
    st.particles.Pairwise (separated radius cell) := by
  unfold createInstr at hok
  by_cases hguard : (planned_atom_counts mass atomic_symbols cell target_density).any
      (fun c => c < 0) = true
  · rw [if_pos hguard] at hok
    cases hok
  · rw [if_neg hguard] at hok
    injection hok with h
    rw [← h]
    apply buildFold_pairwise
    · rw [h]
      exact hfb
    · exact List.Pairwise.nil

/-- Witness for C1: a concrete one-atom build with zero fallbacks. -/
theorem separation_invariant_witness :
    createInstr radOne massOne [("X", 1)] [10, 10, 10] 1 rngHalf =
      Except.ok ⟨[("X", [5, 5, 5])], 1, 0⟩ ∧
    (BuildState.fallbacks ⟨[("X", [5, 5, 5])], 1, 0⟩) = 0 ∧
    (BuildState.particles ⟨[("X", [5, 5, 5])], 1, 0⟩).Pairwise
      (separated radOne [10, 10, 10]) :=
  ⟨singleAtomRun, rfl,
    separation_invariant radOne massOne [("X", 1)] [10, 10, 10] 1 rngHalf
      ⟨[("X", [5, 5, 5])], 1, 0⟩ singleAtomRun rfl⟩

/-! ### Claim C8 -/

lemma jobsOf_length (l : List (Species × ℤ)) :
    (jobsOf l).length = (l.map (fun p => p.2.toNat)).sum := by
  induction l with
  | nil => rfl
  | cons p rest ih => simp [jobsOf, ih]

lemma zip_snd_toNat_sum (l1 : List Species) (l2 : List ℤ) (h : l1.length = l2.length) :
    ((l1.zip l2).map (fun p => p.2.toNat)).sum = (l2.map Int.toNat).sum := by
  induction l1 generalizing l2 with
  | nil =>
    cases l2 with
    | nil => rfl
    | cons b bs => simp at h
  | cons a as ih =>
    cases l2 with
    | nil => simp at h
    | cons b bs =>
      simp only [List.length_cons, Nat.add_right_cancel_iff] at h
      simp [ih bs h]

lemma plannedJobs_length (mass : Species → ℚ) (atomic_symbols : List (Species × ℕ))
    (cell : PosVec) (target_density : ℚ) :
    (plannedJobs mass atomic_symbols cell target_density).length =
      ((planned_atom_counts mass atomic_symbols cell target_density).map Int.toNat).sum := by
  unfold plannedJobs
  rw [jobsOf_length]
  apply zip_snd_toNat_sum
  simp [planned_atom_counts]

/-- C8: count conservation.  Whenever the build returns without a fatal
error and with zero fallbacks, the length of the final placed set equals
the sum of the planned per-species atom counts. -/
theorem count_conservation (radius mass : Species → ℚ)
    (atomic_symbols : List (Species × ℕ)) (cell : PosVec) (target_density : ℚ)
    (rng : ℕ → PosVec) (st : BuildState)
    (hok : createInstr radius mass atomic_symbols cell target_density rng = Except.ok st)
    (hfb : st.fallbacks = 0) :
    st.particles.length =
      ((planned_atom_counts mass atomic_symbols cell target_density).map Int.toNat).sum := by
  unfold createInstr at hok
  by_cases hguard : (planned_atom_counts mass atomic_symbols cell target_density).any
      (fun c => c < 0) = true
  · rw [if_pos hguard] at hok
    cases hok
  · rw [if_neg hguard] at hok
    injection hok with h
    rw [← h, buildFold_length, plannedJobs_length]
    simp

/-- Witness for C8: the one-atom build places exactly the planned one atom. -/
theorem count_conservation_witness :
    createInstr radOne massOne [("X", 1)] [10, 10, 10] 1 rngHalf =
      Except.ok ⟨[("X", [5, 5, 5])], 1, 0⟩ ∧
    (BuildState.fallbacks ⟨[("X", [5, 5, 5])], 1, 0⟩) = 0 ∧
    (BuildState.particles ⟨[("X", [5, 5, 5])], 1, 0⟩).length =
      ((planned_atom_counts massOne [("X", 1)] [10, 10, 10] 1).map Int.toNat).sum :=
  ⟨singleAtomRun, rfl,
    count_conservation radOne massOne [("X", 1)] [10, 10, 10] 1 rngHalf
      ⟨[("X", [5, 5, 5])], 1, 0⟩ singleAtomRun rfl⟩

/-! ### Claim C9 -/

/-- C9 (amended): at every point of the build (after any number of placement
steps) the placed set is no longer than the sum of the per-species planned
counts; that sum, not the single rounded total of calculate_required_atoms,
is the true upper bound. -/
theorem placed_le_planned_counts (radius mass : Species → ℚ)
    (atomic_symbols : List (Species × ℕ)) (cell : PosVec) (target_density : ℚ)
    (rng : ℕ → PosVec) (n : ℕ) :
    (((plannedJobs mass atomic_symbols cell target_density).take n).foldl
        (buildStep radius rng cell) ⟨[], 0, 0⟩).particles.length ≤
      ((planned_atom_counts mass atomic_symbols cell target_density).map Int.toNat).sum := by
  rw [buildFold_length]
  rw [← plannedJobs_length mass atomic_symbols cell target_density]
  rw [List.length_take]
  simp only [List.length_nil]
  omega

/-- A mass table whose gram mass is 2e-21 / 3, so that two species of
weight 1 each contribute 1.5 formula units in a 10 x 10 x 10 cell. -/
def massThird : Species → ℚ := fun _ => 200000000000000 / 498161719980

lemma calcThree :
    calculate_required_atoms massThird [("A", 1), ("B", 1)] [10, 10, 10] 1 = 3 := by
  unfold calculate_required_atoms
  norm_num [massThird, mcf, npRound]

lemma npRound_three_halves : npRound (3/2) = 2 := by
  unfold npRound
  rw [show ⌊(3/2 : ℚ)⌋ = 1 by norm_num]
  norm_num

lemma countsThree :
    planned_atom_counts massThird [("A", 1), ("B", 1)] [10, 10, 10] 1 = [2, 2] := by
  unfold planned_atom_counts
  rw [calcThree]
  norm_num [npRound_three_halves]

/-- Counterexample to C9 as stated: with two equal species the rounded total
of calculate_required_atoms is 3, yet each species is planned
round(0.5 * 3) = 2 atoms (numpy rounds half to even), so the build places
4 particles, exceeding the planned total of calculate_required_atoms. -/
theorem placed_exceeds_required_counterexample :
    calculate_required_atoms massThird [("A", 1), ("B", 1)] [10, 10, 10] 1 = 3 ∧
    (createInstr radOne massThird [("A", 1), ("B", 1)] [10, 10, 10] 1 rngHalf).map
      (fun st => st.particles.length) = Except.ok 4 ∧
    ¬ (4 : ℤ) ≤ 3 := by
  refine ⟨calcThree, ?_, by norm_num⟩
  have hlen : (List.foldl (buildStep radOne rngHalf [10, 10, 10]) ⟨[], 0, 0⟩
      (plannedJobs massThird [("A", 1), ("B", 1)] [10, 10, 10] 1)).particles.length = 4 := by
    rw [buildFold_length]
    unfold plannedJobs
    rw [countsThree]
    norm_num [jobsOf]
    decide
  unfold createInstr
  rw [countsThree]
  norm_num [Except.map]
  exact hlen

/-! ### Claims C2 and C3 -/

lemma mid_sq_cons (a b c : ℚ) (as bs cs : PosVec) :
    mid_sq (a :: as) (b :: bs) (c :: cs) =
      (if 1/2 * c < |a - b| then c - |a - b| else |a - b|) ^ 2 + mid_sq as bs cs := by
  simp [mid_sq]

lemma eucSq_cons (a b : ℚ) (as bs : PosVec) :
    eucSq (a :: as) (b :: bs) = (a - b) ^ 2 + eucSq as bs := by
  simp [eucSq]

/-- In a box of positive extents the wrap correction never increases a
per-axis delta, so the corrected sum of squares is below the plain one. -/
lemma mid_sq_le_eucSq (p1 p2 cell : PosVec) (hcell : ∀ c ∈ cell, 0 < c) :
    mid_sq p1 p2 cell ≤ eucSq p1 p2 := by
  induction p1 generalizing p2 cell with
  | nil => cases p2 <;> simp [mid_sq, eucSq]
  | cons a as ih =>
    cases p2 with
    | nil => simp [mid_sq, eucSq]
    | cons b bs =>
      cases cell with
      | nil =>
        have h := eucSq_nonneg (a :: as) (b :: bs)
        simpa [mid_sq] using h
      | cons c cs =>
        have hc : 0 < c := hcell c (List.mem_cons_self c cs)
        have hcs : ∀ x ∈ cs, 0 < x := fun x hx => hcell x (List.mem_cons_of_mem c hx)
        rw [mid_sq_cons, eucSq_cons]
        have hhead : (if 1/2 * c < |a - b| then c - |a - b| else |a - b|) ^ 2 ≤
            (a - b) ^ 2 := by
          by_cases hd : 1/2 * c < |a - b|
          · rw [if_pos hd]
            have h1 : -|a - b| ≤ c - |a - b| := by linarith
            have h2 : c - |a - b| ≤ |a - b| := by linarith
            calc (c - |a - b|) ^ 2 ≤ |a - b| ^ 2 := sq_le_sq' h1 h2
              _ = (a - b) ^ 2 := sq_abs (a - b)
          · rw [if_neg hd, sq_abs]
        exact add_le_add hhead (ih bs cs hcs)

/-- C2: for any two points, inside the box or not, and any box of positive
per-axis extents, the minimum-image distance is symmetric in its two points
and never exceeds the plain Euclidean distance. -/
theorem minimum_image_symm_le_euclid (p1 p2 cell : PosVec)
    (hcell : ∀ c ∈ cell, 0 < c) :
    minimum_image_distance p1 p2 cell = minimum_image_distance p2 p1 cell ∧
    minimum_image_distance p1 p2 cell ≤ euclidean_distance p1 p2 := by
  constructor
  · unfold minimum_image_distance
    rw [mid_sq_comm]
  · unfold minimum_image_distance euclidean_distance
    apply Real.sqrt_le_sqrt
    exact_mod_cast mid_sq_le_eucSq p1 p2 cell hcell

/-- Witness for C2 at a concrete box and pair of points. -/
theorem minimum_image_symm_le_euclid_witness :
    (∀ c ∈ ([10, 10, 10] : PosVec), 0 < c) ∧
    (minimum_image_distance [1, 2, 3] [9, 2, 3] [10, 10, 10] =
        minimum_image_distance [9, 2, 3] [1, 2, 3] [10, 10, 10] ∧
      minimum_image_distance [1, 2, 3] [9, 2, 3] [10, 10, 10] ≤
        euclidean_distance [1, 2, 3] [9, 2, 3]) := by
  have hc : ∀ c ∈ ([10, 10, 10] : PosVec), 0 < c := by norm_num
  exact ⟨hc, minimum_image_symm_le_euclid [1, 2, 3] [9, 2, 3] [10, 10, 10] hc⟩

/-- The corrected per-axis deltas exactly as the specification words them:
delta = |p1 - p2| per axis, replaced by box - delta when delta exceeds half
the box extent. -/
def corrected_deltas : PosVec → PosVec → PosVec → List ℚ
  | p :: ps, q :: qs, c :: cs =>
      (if 1/2 * c < |p - q| then c - |p - q| else |p - q|) :: corrected_deltas ps qs cs
  | _, _, _ => []

/-- The distance described by the specification: the Euclidean norm of the
corrected per-axis deltas. -/
noncomputable def mid_spec (p1 p2 box : PosVec) : ℝ :=
  Real.sqrt (((((corrected_deltas p1 p2 box).map (fun d => d ^ 2)).sum : ℚ) : ℝ))

lemma mid_sq_eq_corrected (p1 p2 box : PosVec) :
    mid_sq p1 p2 box = ((corrected_deltas p1 p2 box).map (fun d => d ^ 2)).sum := by
  induction p1 generalizing p2 box with
  | nil => cases p2 <;> cases box <;> simp [mid_sq, corrected_deltas]
  | cons a as ih =>
    cases p2 with
    | nil => cases box <;> simp [mid_sq, corrected_deltas]
    | cons b bs =>
      cases box with
      | nil => simp [mid_sq, corrected_deltas]
      | cons c cs =>
        rw [mid_sq_cons]
        simp only [corrected_deltas, List.map_cons, List.sum_cons]
        rw [ih bs cs]

/-- C3: minimum_image_distance computes the per-axis corrected deltas of the
specification and returns their Euclidean norm; in particular, in a 1-D box
of length 10 the points 0.5 and 9.5 are at distance exactly 1. -/
theorem minimum_image_formula_and_wrap :
    (∀ p1 p2 box : PosVec, minimum_image_distance p1 p2 box = mid_spec p1 p2 box) ∧
    minimum_image_distance [1/2] [19/2] [10] = 1 := by
  constructor
  · intro p1 p2 box
    unfold minimum_image_distance mid_spec
    rw [mid_sq_eq_corrected]
  · unfold minimum_image_distance
    rw [show mid_sq [1/2] [19/2] [10] = 1 by norm_num [mid_sq]]
    rw [Rat.cast_one, Real.sqrt_one]

/-! ### Claim C4 -/

/-- C4: the constraint check accepts every candidate against an empty placed
set, and it is antitone in the placed set: a candidate allowed against a
placed set is allowed against every sublist of it, so adding a particle can
only turn an allowed candidate into a disallowed one, never the reverse. -/
theorem allowed_empty_and_antitone :
    (∀ (c : PosVec) (syms : List Species) (s : Species) (radius : Species → ℚ)
        (cell : PosVec) (mf : ℚ),
        is_position_allowed c [] syms s radius cell mf = true) ∧
    (∀ (c : PosVec) (s : Species) (radius : Species → ℚ) (cell : PosVec) (mf : ℚ)
        (L1 L2 : List (Species × PosVec)), L1.Sublist L2 →
        is_position_allowed c (L2.map (fun q => q.2)) (L2.map (fun q => q.1))
          s radius cell mf = true →
        is_position_allowed c (L1.map (fun q => q.2)) (L1.map (fun q => q.1))
          s radius cell mf = true) := by
  constructor
  · intro c syms s radius cell mf
    rfl
  · intro c s radius cell mf L1 L2 hsub hall
    rw [is_position_allowed_pairs, List.all_eq_true] at hall ⊢
    intro e he
    exact hall e (hsub.subset he)

/-- Witness for C4 at a concrete candidate, placed set and sublist. -/
theorem allowed_empty_and_antitone_witness :
    (([] : List (Species × PosVec)).Sublist [(("Y" : Species), ([1, 1, 1] : PosVec))]) ∧
    is_position_allowed [8, 8, 8]
      ([(("Y" : Species), ([1, 1, 1] : PosVec))].map (fun q => q.2))
      ([(("Y" : Species), ([1, 1, 1] : PosVec))].map (fun q => q.1))
      ("X") radOne [10, 10, 10] (11/10) = true ∧
    is_position_allowed [8, 8, 8]
      (([] : List (Species × PosVec)).map (fun q => q.2))
      (([] : List (Species × PosVec)).map (fun q => q.1))
      ("X") radOne [10, 10, 10] (11/10) = true := by
  have hsub : ([] : List (Species × PosVec)).Sublist [(("Y" : Species), ([1, 1, 1] : PosVec))] :=
    List.nil_sublist _
  have hall : is_position_allowed [8, 8, 8]
      ([(("Y" : Species), ([1, 1, 1] : PosVec))].map (fun q => q.2))
      ([(("Y" : Species), ([1, 1, 1] : PosVec))].map (fun q => q.1))
      ("X") radOne [10, 10, 10] (11/10) = true := by
    rw [is_position_allowed_pairs]
    norm_num [distLtB, mid_sq, get_combined_bond_length, radOne]
  exact ⟨hsub, hall, allowed_empty_and_antitone.2 [8, 8, 8] ("X") radOne [10, 10, 10]
    (11/10) [] [(("Y" : Species), ([1, 1, 1] : PosVec))] hsub hall⟩

/-! ### Claim C10 -/

/-- C10: the temperature parameter does not affect the selector.  For a
fixed random stream and cursor, a non-empty existing set and any two
strictly positive temperatures, select_position_metropolis returns the
same triple: the score division by a positive temperature is strictly
monotone and the selection is a plain best-score search. -/
theorem select_temperature_independent (rng : ℕ → PosVec) (k : ℕ)
    (existing : List PosVec) (syms : List Species) (symbol : Species)
    (radius : Species → ℚ) (cell : PosVec) (n : ℕ) (t1 t2 : ℚ)
    (hne : existing ≠ []) (h1 : 0 < t1) (h2 : 0 < t2) :
    select_position_metropolis rng k existing syms symbol radius cell t1 n =
      select_position_metropolis rng k existing syms symbol radius cell t2 n := by
  have hstep : attemptStep rng k existing syms symbol radius cell t1 =
      attemptStep rng k existing syms symbol radius cell t2 := by
    funext acc i
    unfold attemptStep
    simp only [scoreGt_pos t1 t2 h1 h2]
  unfold select_position_metropolis
  rw [hstep]

/-- Witness for C10 at a concrete nonempty placed set and the temperatures
0.1 and 1. -/
theorem select_temperature_independent_witness :
    (([[5, 5, 5]] : List PosVec) ≠ []) ∧ ((0 : ℚ) < 1/10) ∧ ((0 : ℚ) < 1) ∧
    select_position_metropolis rngHalf 1 [[5, 5, 5]] ["X"] ("X") radOne
        [10, 10, 10] (1/10) 5 =
      select_position_metropolis rngHalf 1 [[5, 5, 5]] ["X"] ("X") radOne
        [10, 10, 10] 1 5 := by
  refine ⟨by simp, by norm_num, by norm_num, ?_⟩
  exact select_temperature_independent rngHalf 1 [[5, 5, 5]] ["X"] ("X") radOne
    [10, 10, 10] 5 (1/10) 1 (by simp) (by norm_num) (by norm_num)

/-! ### Claim C5 -/

lemma npRound_zero : npRound 0 = 0 := by
  norm_num [npRound]

lemma zip_zero_snd_sum (l1 : List (Species × ℕ)) (l2 : List ℚ) (h : ∀ x ∈ l2, x = 0) :
    ((l1.zip l2).map (fun pn => (pn.1.2 : ℚ) * pn.2)).sum = 0 := by
  induction l1 generalizing l2 with
  | nil => rfl
  | cons p rest ih =>
    cases l2 with
    | nil => rfl
    | cons b bs =>
      have hb : b = 0 := h b (List.mem_cons_self b bs)
      simp only [List.zip_cons_cons, List.map_cons, List.sum_cons, hb, mul_zero, zero_add]
      exact ih bs (fun x hx => h x (List.mem_cons_of_mem b hx))

/-- With a zero-volume box calculate_required_atoms returns zero: the target
mass rho times the zero volume is zero, each species gets zero formula units,
and every quantity stays finite. -/
lemma calc_req_zero_vol (mass : Species → ℚ) (atomic_symbols : List (Species × ℕ))
    (cell : PosVec) (ρ : ℚ) (h0 : (0 : ℚ) ∈ cell) :
    calculate_required_atoms mass atomic_symbols cell ρ = 0 := by
  unfold calculate_required_atoms
  rw [List.prod_eq_zero h0]
  dsimp only
  rw [zip_zero_snd_sum atomic_symbols _ ?_]
  · exact npRound_zero
  · intro x hx
    rcases List.mem_map.1 hx with ⟨g, _, hg⟩
    rw [← hg]
    simp

lemma counts_zero_vol (mass : Species → ℚ) (atomic_symbols : List (Species × ℕ))
    (cell : PosVec) (ρ : ℚ) (h0 : (0 : ℚ) ∈ cell) :
    planned_atom_counts mass atomic_symbols cell ρ = atomic_symbols.map (fun _ => 0) := by
  unfold planned_atom_counts
  rw [calc_req_zero_vol mass atomic_symbols cell ρ h0]
  simp [npRound_zero]

lemma jobsOf_nonpos (l : List (Species × ℤ)) (h : ∀ p ∈ l, p.2 ≤ 0) : jobsOf l = [] := by
  induction l with
  | nil => rfl
  | cons p rest ih =>
    have hp : p.2 ≤ 0 := h p (List.mem_cons_self p rest)
    simp [jobsOf, Int.toNat_of_nonpos hp]
    exact ih (fun q hq => h q (List.mem_cons_of_mem p hq))

/-- C5 (amended): a zero-volume box does not abort the build.
calculate_required_atoms returns zero (every intermediate quantity is
finite), no error is raised, and create_amorphous_structure returns an
empty structure before any particle is placed.  The hypothesis on the
masses keeps the model inside the domain where the source divides by a
nonzero per-species gram mass. -/
theorem zero_volume_build (radius mass : Species → ℚ)
    (atomic_symbols : List (Species × ℕ)) (cell : PosVec) (ρ : ℚ) (rng : ℕ → PosVec)
    (h0 : (0 : ℚ) ∈ cell)
    (hm : ∀ p ∈ atomic_symbols, mass p.1 * (p.2 : ℚ) ≠ 0) :
    calculate_required_atoms mass atomic_symbols cell ρ = 0 ∧
    createInstr radius mass atomic_symbols cell ρ rng = Except.ok ⟨[], 0, 0⟩ := by
  refine ⟨calc_req_zero_vol mass atomic_symbols cell ρ h0, ?_⟩
  unfold createInstr plannedJobs
  rw [counts_zero_vol mass atomic_symbols cell ρ h0]
  dsimp only
  have hjobs : jobsOf ((atomic_symbols.map (fun p => p.1)).zip
      (atomic_symbols.map (fun _ => (0 : ℤ)))) = [] := by
    apply jobsOf_nonpos
    intro p hp
    rcases p with ⟨a, b⟩
    have hb := (List.of_mem_zip hp).2
    rcases List.mem_map.1 hb with ⟨q, _, hq⟩
    have hb0 : b = 0 := by rw [← hq]
    simp [hb0]
  have hguard : (atomic_symbols.map (fun _ => (0 : ℤ))).any (fun c => c < 0) = false := by
    rw [List.any_eq_false]
    intro x hx
    rcases List.mem_map.1 hx with ⟨q, _, hq⟩
    have hx0 : x = 0 := by rw [← hq]
    simp [hx0]
  rw [hguard]
  simp only [Bool.false_eq_true, if_false, hjobs, List.foldl_nil]

/-- Counterexample to C5 as stated: at a concrete zero-volume box the build
raises nothing; it returns an empty structure, and calculate_required_atoms
returns the finite value zero rather than a non-finite quantity. -/
theorem zero_volume_no_error_counterexample :
    calculate_required_atoms massOne [("X", 1)] [0, 10, 10] 1 = 0 ∧
    createInstr radOne massOne [("X", 1)] [0, 10, 10] 1 rngHalf = Except.ok ⟨[], 0, 0⟩ := by
  have hca : calculate_required_atoms massOne [("X", 1)] [0, 10, 10] 1 = 0 := by
    unfold calculate_required_atoms
    norm_num [massOne, mcf, npRound]
  refine ⟨hca, ?_⟩
  have hc : planned_atom_counts massOne [("X", 1)] [0, 10, 10] 1 = [0] := by
    unfold planned_atom_counts
    rw [hca]
    norm_num [npRound_zero]
  unfold createInstr plannedJobs
  rw [hc]
  norm_num [jobsOf]

/-- Witness for the amended C5 at a concrete zero-volume box. -/
theorem zero_volume_build_witness :
    ((0 : ℚ) ∈ ([10, 0, 10] : PosVec)) ∧
    (∀ p ∈ ([("X", 1)] : List (Species × ℕ)), massOne p.1 * (p.2 : ℚ) ≠ 0) ∧
    (calculate_required_atoms massOne [("X", 1)] [10, 0, 10] 1 = 0 ∧
      createInstr radOne massOne [("X", 1)] [10, 0, 10] 1 rngHalf = Except.ok ⟨[], 0, 0⟩) := by
  have h0 : (0 : ℚ) ∈ ([10, 0, 10] : PosVec) := by simp
  have hm : ∀ p ∈ ([("X", 1)] : List (Species × ℕ)), massOne p.1 * (p.2 : ℚ) ≠ 0 := by
    intro p hp
    rw [List.mem_singleton] at hp
    subst hp
    norm_num [massOne]
  exact ⟨h0, hm, zero_volume_build radOne massOne [("X", 1)] [10, 0, 10] 1 rngHalf h0 hm⟩

/-! ### Claim C6 -/

/-- The per-species final counts as the specification words them: each
species gets round(stoichiometry_weight * that species own candidate
formula-unit count), with the candidate count derived from the target mass
and that species own per-formula-unit gram mass. -/
def density_planner_spec_counts (mass : Species → ℚ) (atomic_symbols : List (Species × ℕ))
    (cell_size : PosVec) (target_density : ℚ) : List ℤ :=
  atomic_symbols.map (fun p =>
    npRound ((p.2 : ℚ) * (target_density * (cell_size.prod * (1 / 10 ^ 24)) /
      (mass p.1 * mcf * (p.2 : ℚ)))))

/-- Mass table for two species A and B whose gram masses are 1e-22 and
5e-22, giving candidate formula-unit counts 10 and 2 in a 10 x 10 x 10
cell at density 1. -/
def massAB : Species → ℚ := fun s =>
  if s = "A" then 10000000000000 / 166053906660 else 50000000000000 / 166053906660

lemma massAB_A : massAB "A" = 10000000000000 / 166053906660 := by
  unfold massAB
  rw [if_pos rfl]

lemma massAB_B : massAB "B" = 50000000000000 / 166053906660 := by
  unfold massAB
  rw [if_neg (by decide)]

lemma calcAB : calculate_required_atoms massAB [("A", 1), ("B", 1)] [10, 10, 10] 1 = 12 := by
  unfold calculate_required_atoms
  norm_num [massAB_A, massAB_B, mcf, npRound]

lemma countsAB : planned_atom_counts massAB [("A", 1), ("B", 1)] [10, 10, 10] 1 = [6, 6] := by
  unfold planned_atom_counts
  rw [calcAB]
  norm_num [npRound]

lemma specCountsAB :
    density_planner_spec_counts massAB [("A", 1), ("B", 1)] [10, 10, 10] 1 = [10, 2] := by
  unfold density_planner_spec_counts
  norm_num [massAB_A, massAB_B, mcf, npRound]

/-- Counterexample to C6 as stated: with species A and B of unequal masses
the code plans [6, 6] atoms, while round(weight times each species own
candidate formula-unit count) would give [10, 2]; the final counts do not
come from the per-species candidate counts. -/
theorem planner_counts_counterexample :
    planned_atom_counts massAB [("A", 1), ("B", 1)] [10, 10, 10] 1 = [6, 6] ∧
    density_planner_spec_counts massAB [("A", 1), ("B", 1)] [10, 10, 10] 1 = [10, 2] ∧
    ([6, 6] : List ℤ) ≠ [10, 2] := by
  refine ⟨countsAB, specCountsAB, ?_⟩
  simp

/-- C6 (amended): the planner computes an independent candidate
formula-unit count per species, but it then sums the per-species atom
totals into the single rounded total of calculate_required_atoms, and each
species final count is round(weight / weight-sum * that shared total) -
not round(weight * its own candidate count), from which it differs at
concrete inputs. -/
theorem planner_counts_shared_total :
    (∀ (mass : Species → ℚ) (atomic_symbols : List (Species × ℕ)) (cell : PosVec) (ρ : ℚ),
      planned_atom_counts mass atomic_symbols cell ρ =
        atomic_symbols.map (fun p => npRound ((p.2 : ℚ) /
          (((atomic_symbols.map (fun q => q.2)).sum : ℕ) : ℚ) *
          ((calculate_required_atoms mass atomic_symbols cell ρ : ℤ) : ℚ)))) ∧
    planned_atom_counts massAB [("A", 1), ("B", 1)] [10, 10, 10] 1 ≠
      density_planner_spec_counts massAB [("A", 1), ("B", 1)] [10, 10, 10] 1 := by
  constructor
  · intro mass atomic_symbols cell ρ
    rfl
  · rw [countsAB, specCountsAB]
    simp

/-! ### Claim C7 -/

/-- A mass table whose gram mass is 5e-22, planning exactly two atoms of a
single species in a 10 x 10 x 10 cell at density 1. -/
def massTwo : Species → ℚ := fun _ => 100000000000000 / 332107813320

/-- Random stream of run A: every draw during the attempt budget of the
second particle repeats the centre of the cell, so every candidate is
rejected and the selector falls back; the fallback draw then lands on an
allowed position. -/
def rngA : ℕ → PosVec := fun k =>
  if k ≤ 1000 then [1/2, 1/2, 1/2] else [1/20, 1/20, 1/20]

/-- Random stream of run B: the first draw placed the first particle at the
centre, every later draw proposes the same allowed corner candidate, which
the selector accepts without any fallback. -/
def rngB : ℕ → PosVec := fun k =>
  if k = 0 then [1/2, 1/2, 1/2] else [0, 0, 0]

lemma calcTwo : calculate_required_atoms massTwo [("X", 1)] [10, 10, 10] 1 = 2 := by
  unfold calculate_required_atoms
  norm_num [massTwo, mcf, npRound]

lemma countsTwo : planned_atom_counts massTwo [("X", 1)] [10, 10, 10] 1 = [2] := by
  unfold planned_atom_counts
  rw [calcTwo]
  norm_num [npRound]

lemma jobsTwo : plannedJobs massTwo [("X", 1)] [10, 10, 10] 1 = ["X", "X"] := by
  unfold plannedJobs
  rw [countsTwo]
  norm_num [jobsOf]
  decide

/-- The first placement of both runs: the placed set is empty, so the first
unconstrained draw becomes the first particle. -/
lemma buildStep_first (rng : ℕ → PosVec) (h : rng 0 = [1/2, 1/2, 1/2]) :
    buildStep radOne rng [10, 10, 10] ⟨[], 0, 0⟩ ("X") = ⟨[("X", [5, 5, 5])], 1, 0⟩ := by
  rw [buildStep_eq radOne rng [10, 10, 10] ⟨[], 0, 0⟩ ("X") (randPos (rng 0) [10, 10, 10])
    1 false (select_empty rng 0 [] ("X") radOne [10, 10, 10] (1/10) 1000)]
  rw [h]
  norm_num [randPos]

/-- The centre candidate coincides with the particle already placed there,
so the constraint check rejects it. -/
lemma cand_center_disallowed :
    is_position_allowed (candPos [1/2, 1/2, 1/2] [10, 10, 10]) [[5, 5, 5]] ["X"] ("X")
      radOne [10, 10, 10] (11/10) = false := by
  norm_num [candPos, is_position_allowed, mid_sq, distLtB, get_combined_bond_length, radOne]

/-- The corner candidate is far from the centre particle and passes the
constraint check. -/
lemma cand_corner_allowed :
    is_position_allowed (candPos [0, 0, 0] [10, 10, 10]) [[5, 5, 5]] ["X"] ("X")
      radOne [10, 10, 10] (11/10) = true := by
  norm_num [candPos, is_position_allowed, mid_sq, distLtB, get_combined_bond_length, radOne,
    abs_of_nonneg (by norm_num : (0 : ℚ) ≤ 9/2)]

/-- Selection for the second particle of run A: all 1000 attempts propose
the rejected centre, so the selector returns the unconstrained fallback. -/
lemma selectA : select_position_metropolis rngA 1 [[5, 5, 5]] ["X"] ("X") radOne
    [10, 10, 10] (1/10) 1000 = ([1/2, 1/2, 1/2], 1002, true) := by
  have hfold : (List.range 1000).foldl
      (attemptStep rngA 1 [[5, 5, 5]] ["X"] ("X") radOne [10, 10, 10] (1/10)) none = none := by
    apply foldl_fix_of_mem
    intro i hi
    rw [List.mem_range] at hi
    have hrng : rngA (1 + i) = [1/2, 1/2, 1/2] := by
      unfold rngA
      rw [if_pos (by omega)]
    unfold attemptStep
    rw [hrng]
    rw [if_neg (by rw [cand_center_disallowed]; exact Bool.false_ne_true)]
  rw [select_of_fold_none rngA 1 [[5, 5, 5]] ["X"] ("X") radOne [10, 10, 10] (1/10) 1000
    rfl hfold]
  have hrng2 : rngA (1 + 1000) = [1/20, 1/20, 1/20] := by
    unfold rngA
    rw [if_neg (by omega)]
  rw [hrng2]
  norm_num [randPos]

/-- Selection for the second particle of run B: every attempt proposes the
allowed corner, the first is retained (equal scores never replace the
incumbent), and no fallback happens. -/
lemma selectB : select_position_metropolis rngB 1 [[5, 5, 5]] ["X"] ("X") radOne
    [10, 10, 10] (1/10) 1000 = ([1/2, 1/2, 1/2], 1001, false) := by
  have hfold : (List.range 1000).foldl
      (attemptStep rngB 1 [[5, 5, 5]] ["X"] ("X") radOne [10, 10, 10] (1/10)) none =
      some ([1/2, 1/2, 1/2], 243/4) := by
    apply foldl_to_fix_of_mem _ none _ (List.range 1000)
    · intro h
      have hl := congrArg List.length h
      simp at hl
    · intro i hi
      have hrng : rngB (1 + i) = [0, 0, 0] := by
        unfold rngB
        rw [if_neg (by omega)]
      unfold attemptStep
      rw [hrng]
      rw [if_pos cand_corner_allowed]
      norm_num [candPos, minDistSq, eucSq]
    · intro i hi
      have hrng : rngB (1 + i) = [0, 0, 0] := by
        unfold rngB
        rw [if_neg (by omega)]
      unfold attemptStep
      rw [hrng]
      rw [if_pos cand_corner_allowed]
      norm_num [candPos, minDistSq, eucSq, scoreGt]
  rw [select_of_fold_some rngB 1 [[5, 5, 5]] ["X"] ("X") radOne [10, 10, 10] (1/10) 1000
    ([1/2, 1/2, 1/2], 243/4) rfl hfold]

/-- Run A: the first particle is placed at the centre, the second goes
through the fallback branch and lands on the corner; one fallback. -/
lemma runA : createInstr radOne massTwo [("X", 1)] [10, 10, 10] 1 rngA =
    Except.ok ⟨[("X", [5, 5, 5]), ("X", [1/2, 1/2, 1/2])], 1002, 1⟩ := by
  unfold createInstr
  rw [countsTwo, jobsTwo]
  dsimp only
  rw [if_neg (show ¬ ((([2] : List ℤ).any (fun c => c < 0)) = true) by decide)]
  rw [List.foldl_cons, List.foldl_cons, List.foldl_nil]
  rw [buildStep_first rngA (by unfold rngA; rw [if_pos (by omega)])]
  rw [buildStep_eq radOne rngA [10, 10, 10] ⟨[("X", [5, 5, 5])], 1, 0⟩ ("X")
    [1/2, 1/2, 1/2] 1002 true selectA]
  norm_num

/-- Run B: the same two positions are produced with zero fallbacks. -/
lemma runB : createInstr radOne massTwo [("X", 1)] [10, 10, 10] 1 rngB =
    Except.ok ⟨[("X", [5, 5, 5]), ("X", [1/2, 1/2, 1/2])], 1001, 0⟩ := by
  unfold createInstr
  rw [countsTwo, jobsTwo]
  dsimp only
  rw [if_neg (show ¬ ((([2] : List ℤ).any (fun c => c < 0)) = true) by decide)]
  rw [List.foldl_cons, List.foldl_cons, List.foldl_nil]
  rw [buildStep_first rngB rfl]
  rw [buildStep_eq radOne rngB [10, 10, 10] ⟨[("X", [5, 5, 5])], 1, 0⟩ ("X")
    [1/2, 1/2, 1/2] 1001 false selectB]
  norm_num

/-- Counterexample to C7 as stated: run A makes one fallback placement and
run B none, yet create_amorphous_structure returns the identical value for
both runs, so the value the source returns carries no fallback count at
all. -/
theorem fallback_count_not_surfaced_counterexample :
    createInstr radOne massTwo [("X", 1)] [10, 10, 10] 1 rngA =
      Except.ok ⟨[("X", [5, 5, 5]), ("X", [1/2, 1/2, 1/2])], 1002, 1⟩ ∧
    createInstr radOne massTwo [("X", 1)] [10, 10, 10] 1 rngB =
      Except.ok ⟨[("X", [5, 5, 5]), ("X", [1/2, 1/2, 1/2])], 1001, 0⟩ ∧
    create_amorphous_structure radOne massTwo [("X", 1)] [10, 10, 10] 1 rngA =
      create_amorphous_structure radOne massTwo [("X", 1)] [10, 10, 10] 1 rngB ∧
    (1 : ℕ) ≠ 0 := by
  refine ⟨runA, runB, ?_, by omega⟩
  unfold create_amorphous_structure
  rw [runA, runB]
  rfl

/-- C7 (amended): when the selector exhausts its budget the builder still
appends the fallback particle - every build step extends the placed set by
exactly the selected position, fallback or not - but the value
create_amorphous_structure returns surfaces no fallback count: two runs
with different fallback counts return the identical value. -/
theorem fallback_appended_but_not_surfaced :
    (∀ (radius : Species → ℚ) (rng : ℕ → PosVec) (cell : PosVec) (st : BuildState)
        (symbol : Species),
      (buildStep radius rng cell st symbol).particles =
        st.particles ++ [(symbol, (select_position_metropolis rng st.idx
          (st.particles.map (fun q => q.2)) (st.particles.map (fun q => q.1))
          symbol radius cell (1/10) 1000).1)]) ∧
    ((createInstr radOne massTwo [("X", 1)] [10, 10, 10] 1 rngA).map
        (fun st => st.fallbacks) = Except.ok 1 ∧
      (createInstr radOne massTwo [("X", 1)] [10, 10, 10] 1 rngB).map
        (fun st => st.fallbacks) = Except.ok 0 ∧
      create_amorphous_structure radOne massTwo [("X", 1)] [10, 10, 10] 1 rngA =
        create_amorphous_structure radOne massTwo [("X", 1)] [10, 10, 10] 1 rngB) := by
  refine ⟨buildStep_particles, ?_, ?_, ?_⟩
  · rw [runA]
    rfl
  · rw [runB]
    rfl
  · unfold create_amorphous_structure
    rw [runA, runB]
    rfl
